/-
Verification of the client-side behavior layer of ani-web
(src/static/page-behavior.js and the autocomplete script).

The JavaScript source is shallowly embedded: each DOM event handler or
helper function becomes a pure Lean function over explicit state
(watchlist sequences as `List String`, localStorage payloads as
`Option String`, DOM fragments as small structures), and the claims of
the specification are settled as theorems about those functions.
-/
import Mathlib

set_option autoImplicit false

namespace AniWeb

/-! ## Watchlist Store (page-behavior.js lines 373-403)

The store is a JSON-encoded list of string identifiers under the single
localStorage key `aniweb_watchlist`.  `toggleWatchlist` reads the decoded
list, transforms it, and writes the whole list back.  The list-level
transformation performed by `toggleWatchlist` (lines 394-403) is:

    if (watchlist.includes(anime)) {
        watchlist = watchlist.filter(id => id !== anime);
    } else {
        watchlist.push(anime);
    }
-/

/-- `isInWatchlist(anime)` (line 389-391): membership of `anime` in the
decoded watchlist, `getWatchlist().includes(anime)`. -/
def isInWatchlist (watchlist : List String) (anime : String) : Bool :=
  watchlist.contains anime

/-- The list-level effect of `toggleWatchlist(anime)` (lines 394-403):
if present, remove every occurrence via `filter(id => id !== anime)`;
otherwise `push(anime)` appends it at the end.  The surrounding
read/write of localStorage is the identity on the decoded list. -/
def toggleWatchlist (watchlist : List String) (anime : String) : List String :=
  if watchlist.contains anime then
    watchlist.filter (fun id => id != anime)
  else
    watchlist ++ [anime]

theorem toggleWatchlist_of_mem {watchlist : List String} {anime : String}
    (h : anime ∈ watchlist) :
    toggleWatchlist watchlist anime = watchlist.filter (fun id => id != anime) := by
  simp [toggleWatchlist, h]

theorem toggleWatchlist_of_not_mem {watchlist : List String} {anime : String}
    (h : anime ∉ watchlist) :
    toggleWatchlist watchlist anime = watchlist ++ [anime] := by
  simp [toggleWatchlist, h]

theorem filter_ne_of_not_mem {l : List String} {anime : String} (h : anime ∉ l) :
    l.filter (fun id => id != anime) = l := by
  induction l with
  | nil => rfl
  | cons x xs ih =>
    simp only [List.mem_cons, not_or] at h
    have hx : x ≠ anime := fun hc => h.1 hc.symm
    simp [List.filter_cons, bne_iff_ne, hx, ih h.2]

/-- C1 counterexample: starting from the sequence `["a", "b"]`, toggling
`"a"` twice yields `["b", "a"]`, not the original sequence. -/
theorem toggleWatchlist_twice_not_id :
    toggleWatchlist (toggleWatchlist ["a", "b"] "a") "a" = ["b", "a"] ∧
    toggleWatchlist (toggleWatchlist ["a", "b"] "a") "a" ≠ ["a", "b"] := by
  constructor
  · rfl
  · decide

/-- C1 (amended): toggling `id` twice restores the original sequence
exactly when `id` was absent; when `id` was present the pair yields the
original sequence with all occurrences of `id` removed and a single `id`
appended at the end.  In both cases the membership of every identifier
is restored. -/
theorem toggleWatchlist_twice (watchlist : List String) (anime : String) :
    (anime ∉ watchlist →
      toggleWatchlist (toggleWatchlist watchlist anime) anime = watchlist) ∧
    (anime ∈ watchlist →
      toggleWatchlist (toggleWatchlist watchlist anime) anime =
        watchlist.filter (fun id => id != anime) ++ [anime]) ∧
    (∀ x, x ∈ toggleWatchlist (toggleWatchlist watchlist anime) anime ↔
      x ∈ watchlist) := by
  by_cases h : anime ∈ watchlist
  · have h1 : toggleWatchlist watchlist anime =
        watchlist.filter (fun id => id != anime) := toggleWatchlist_of_mem h
    have hnm : anime ∉ watchlist.filter (fun id => id != anime) := by
      simp [List.mem_filter]
    have h2 : toggleWatchlist (toggleWatchlist watchlist anime) anime =
        watchlist.filter (fun id => id != anime) ++ [anime] := by
      rw [h1, toggleWatchlist_of_not_mem hnm]
    refine ⟨fun hc => absurd h hc, fun _ => h2, fun x => ?_⟩
    rw [h2]
    simp only [List.mem_append, List.mem_filter, List.mem_singleton, bne_iff_ne,
      ne_eq]
    constructor
    · rintro (⟨hx, _⟩ | rfl)
      · exact hx
      · exact h
    · intro hx
      by_cases hxa : x = anime
      · exact Or.inr hxa
      · exact Or.inl ⟨hx, hxa⟩
  · have h1 : toggleWatchlist watchlist anime = watchlist ++ [anime] :=
      toggleWatchlist_of_not_mem h
    have hm : anime ∈ watchlist ++ [anime] := by simp
    have h2 : toggleWatchlist (toggleWatchlist watchlist anime) anime = watchlist := by
      rw [h1, toggleWatchlist_of_mem hm, List.filter_append,
        filter_ne_of_not_mem h]
      simp
    exact ⟨fun _ => h2, fun hc => absurd hc h, fun x => by rw [h2]⟩

/-- C1 witness: a concrete instantiation of the amended statement at an
absent identifier, where the pair is an exact round trip. -/
theorem toggleWatchlist_twice_witness :
    "c" ∉ ["a", "b"] ∧
    toggleWatchlist (toggleWatchlist ["a", "b"] "c") "c" = ["a", "b"] :=
  ⟨by decide, (toggleWatchlist_twice ["a", "b"] "c").1 (by decide)⟩

/-- C10: `toggleWatchlist anime` changes only the membership of `anime`
itself.  Every other identifier keeps its membership and even its exact
multiplicity, and the subsequence of non-`anime` entries (their relative
order) is unchanged. -/
theorem toggleWatchlist_frame (watchlist : List String) (anime x : String)
    (hx : x ≠ anime) :
    (x ∈ toggleWatchlist watchlist anime ↔ x ∈ watchlist) ∧
    (toggleWatchlist watchlist anime).filter (fun id => id != anime) =
      watchlist.filter (fun id => id != anime) ∧
    (toggleWatchlist watchlist anime).count x = watchlist.count x := by
  by_cases h : anime ∈ watchlist
  · rw [toggleWatchlist_of_mem h]
    refine ⟨?_, ?_, ?_⟩
    · simp [List.mem_filter, bne_iff_ne, hx]
    · rw [List.filter_filter]
      simp
    · rw [List.count_filter]
      simp [hx]
  · rw [toggleWatchlist_of_not_mem h]
    refine ⟨?_, ?_, ?_⟩
    · simp [hx]
    · rw [List.filter_append, List.filter_cons]
      simp
    · rw [List.count_append]
      simp [List.count_singleton', hx]

/-- C10 witness: concrete instantiation with a watchlist containing a
bystander identifier. -/
theorem toggleWatchlist_frame_witness :
    ("b" : String) ≠ "a" ∧
    (("b" ∈ toggleWatchlist ["a", "b"] "a" ↔ "b" ∈ (["a", "b"] : List String)) ∧
    (toggleWatchlist ["a", "b"] "a").filter (fun id => id != "a") =
      (["a", "b"] : List String).filter (fun id => id != "a") ∧
    (toggleWatchlist ["a", "b"] "a").count "b" =
      (["a", "b"] : List String).count "b") :=
  ⟨by decide, toggleWatchlist_frame ["a", "b"] "a" "b" (by decide)⟩

/-! ## Playback Controller (page-behavior.js lines 18-169)

Media times are embedded as rationals.  `jsTrunc` models JavaScript's
`parseInt` applied to a finite number (truncation toward zero) and
`jsMod` models the `%` operator on finite numbers
(`a - b * trunc(a / b)`, the remainder with the dividend's sign). -/

/-- JavaScript `parseInt` on a finite number: truncation toward zero. -/
def jsTrunc (q : ℚ) : ℤ :=
  if q < 0 then -⌊-q⌋ else ⌊q⌋

/-- JavaScript `%` on finite numbers: `a - b * trunc(a / b)`. -/
def jsMod (a b : ℚ) : ℚ :=
  a - b * jsTrunc (a / b)

/-- `toLocaleString('en-US', { minimumIntegerDigits: 2, useGrouping: false })`
on an integer: pad with a leading zero up to two digits. -/
def padMin2 (n : ℤ) : String :=
  if 0 ≤ n ∧ n < 10 then "0" ++ toString n else toString n

/-- The `timeupdate` handler (lines 57-68): guarded by `!video.duration`
(a zero duration is falsy and aborts the handler), it sets
`seekBar.value = (currentTime / duration) * 100` and renders the
timestamp as `parseInt((currentTime/60)%60)` and `parseInt(currentTime%60)`,
each padded to two digits, joined by `":"`.  Returns `none` when the
guard fires, otherwise `some (seekBarValue, timestampText)`. -/
def timeupdate (currentTime duration : ℚ) : Option (ℚ × String) :=
  if duration = 0 then none
  else
    some ((currentTime / duration) * 100,
      padMin2 (jsTrunc (jsMod (currentTime / 60) 60)) ++ ":" ++
        padMin2 (jsTrunc (jsMod currentTime 60)))

/-- `keydown` handler, `ArrowRight` branch (line 78):
`Math.min(currentTime + 10, duration)`. -/
def keydownArrowRight (currentTime duration : ℚ) : ℚ :=
  min (currentTime + 10) duration

/-- `keydown` handler, `ArrowLeft` branch (line 80):
`Math.max(currentTime - 10, 0)`. -/
def keydownArrowLeft (currentTime : ℚ) : ℚ :=
  max (currentTime - 10) 0

/-- `rewind` click handler (line 86): `Math.max(currentTime - 88, 0)`. -/
def rewindClick (currentTime : ℚ) : ℚ :=
  max (currentTime - 88) 0

/-- `forward` click handler (line 90): `Math.min(currentTime + 88, duration)`. -/
def forwardClick (currentTime duration : ℚ) : ℚ :=
  min (currentTime + 88) duration

/-- C6: from any playback position `t ∈ [0, duration]`, each of the four
relative seeks (10-second arrow keys, 88-second buttons) lands inside
`[0, duration]`; in particular the 88-second skip-back from `t = 5`
yields exactly `0`. -/
theorem relativeSeeks_clamped (t d : ℚ) (h0 : 0 ≤ t) (hd : t ≤ d) :
    (0 ≤ keydownArrowRight t d ∧ keydownArrowRight t d ≤ d) ∧
    (0 ≤ keydownArrowLeft t ∧ keydownArrowLeft t ≤ d) ∧
    (0 ≤ rewindClick t ∧ rewindClick t ≤ d) ∧
    (0 ≤ forwardClick t d ∧ forwardClick t d ≤ d) ∧
    rewindClick 5 = 0 := by
  have hd0 : 0 ≤ d := le_trans h0 hd
  refine ⟨⟨le_min (by linarith) hd0, min_le_right _ _⟩,
    ⟨le_max_right _ _, max_le (by linarith) hd0⟩,
    ⟨le_max_right _ _, max_le (by linarith) hd0⟩,
    ⟨le_min (by linarith) hd0, min_le_right _ _⟩, ?_⟩
  norm_num [rewindClick, max_def]

/-- C6 witness: concrete instantiation at `t = 5`, `d = 100`. -/
theorem relativeSeeks_clamped_witness :
    (0 : ℚ) ≤ 5 ∧ (5 : ℚ) ≤ 100 ∧ rewindClick 5 = 0 ∧
    keydownArrowLeft 5 = 0 ∧ keydownArrowRight 5 100 = 15 :=
  ⟨by norm_num, by norm_num,
    (relativeSeeks_clamped 5 100 (by norm_num) (by norm_num)).2.2.2.2,
    by rw [keydownArrowLeft]; norm_num [max_def],
    by rw [keydownArrowRight]; norm_num [min_def]⟩

theorem jsTrunc_of_nonneg {q : ℚ} (h : 0 ≤ q) : jsTrunc q = ⌊q⌋ := by
  simp [jsTrunc, not_lt.mpr h]

/-- For a nonnegative dividend and a positive natural divisor, the
JavaScript remainder truncates to the natural remainder of the floors. -/
theorem jsTrunc_jsMod_natCast (t : ℚ) (n : ℕ) (ht : 0 ≤ t) (hn : 0 < n) :
    jsTrunc (jsMod t (n : ℚ)) = ((⌊t⌋₊ % n : ℕ) : ℤ) := by
  have hnq : (0 : ℚ) < (n : ℚ) := by exact_mod_cast hn
  have hq : 0 ≤ t / (n : ℚ) := div_nonneg ht (le_of_lt hnq)
  have htr : jsTrunc (t / (n : ℚ)) = ⌊t / (n : ℚ)⌋ := jsTrunc_of_nonneg hq
  have hmod : jsMod t (n : ℚ) = t - ((n * ⌊t / (n : ℚ)⌋ : ℤ) : ℚ) := by
    rw [jsMod, htr]
    push_cast
    ring
  have hmod_nonneg : 0 ≤ jsMod t (n : ℚ) := by
    have := Int.sub_floor_div_mul_nonneg t hnq
    rw [hmod]
    push_cast
    linarith
  have hfl : jsTrunc (jsMod t (n : ℚ)) = ⌊t⌋ - n * ⌊t / (n : ℚ)⌋ := by
    rw [jsTrunc_of_nonneg hmod_nonneg, hmod, Int.floor_sub_int]
  have h1 : ((⌊t⌋₊ : ℤ)) = ⌊t⌋ := Int.natCast_floor_eq_floor ht
  have h2 : ((⌊t / (n : ℚ)⌋₊ : ℤ)) = ⌊t / (n : ℚ)⌋ := Int.natCast_floor_eq_floor hq
  have h3 : ⌊t / (n : ℚ)⌋₊ = ⌊t⌋₊ / n := Nat.floor_div_nat t n
  have h4 := Nat.mod_add_div (⌊t⌋₊) n
  have h4' : ((⌊t⌋₊ % n : ℕ) : ℤ) + (n : ℤ) * ((⌊t⌋₊ / n : ℕ) : ℤ) = (⌊t⌋₊ : ℤ) := by
    exact_mod_cast h4
  rw [hfl, ← h1, ← h2, h3]
  push_cast
  push_cast at h4'
  linarith

/-- C8: on a `timeupdate` with nonnegative current time and a non-zero
duration, the rendered timestamp is the zero-padded pair
`⌊t⌋ / 60 mod 60` minutes and `⌊t⌋ mod 60` seconds, and the seek bar is
set to `(t / d) * 100`. -/
theorem timeupdate_format (t d : ℚ) (ht : 0 ≤ t) (hd : d ≠ 0) :
    timeupdate t d = some ((t / d) * 100,
      padMin2 ((⌊t⌋₊ / 60 % 60 : ℕ) : ℤ) ++ ":" ++ padMin2 ((⌊t⌋₊ % 60 : ℕ) : ℤ)) := by
  have hsec : jsTrunc (jsMod t 60) = ((⌊t⌋₊ % 60 : ℕ) : ℤ) := by
    have h := jsTrunc_jsMod_natCast t 60 ht (by norm_num)
    simpa using h
  have hmin : jsTrunc (jsMod (t / 60) 60) = ((⌊t⌋₊ / 60 % 60 : ℕ) : ℤ) := by
    have ht60 : 0 ≤ t / 60 := by positivity
    have h := jsTrunc_jsMod_natCast (t / 60) 60 ht60 (by norm_num)
    have hfl : ⌊t / (60 : ℚ)⌋₊ = ⌊t⌋₊ / 60 := by
      have := Nat.floor_div_nat t (60 : ℕ)
      simpa using this
    simp only [Nat.cast_ofNat] at h
    rw [h, hfl]
  rw [timeupdate, if_neg hd, hmin, hsec]

/-- C8 witness: `currentTime = 125` with duration `1` renders `"02:05"`
(and seek-bar value `12500`). -/
theorem timeupdate_format_witness :
    timeupdate 125 1 = some (12500, "02:05") := by
  rw [timeupdate_format 125 1 (by norm_num) (by norm_num)]
  have h1 : (125 : ℚ) / 1 * 100 = 12500 := by norm_num
  have h2 : ⌊(125 : ℚ)⌋₊ = 125 := by norm_num
  rw [h1, h2]
  decide

/-! ## Watchlist View Synchronizer (page-behavior.js lines 406-467)

The DOM fragments the synchronizer touches are embedded as small
structures: a `.watchlist-btn` element with its `data-anime` attribute,
class list and text content; the card is the button's `parentElement`. -/

structure WatchlistBtn where
  anime : String
  classList : List String
  textContent : String
deriving DecidableEq

/-- The `parentElement` of a watchlist toggle: the containing card.
`btn.parentElement.remove()` removes the card and the toggle with it. -/
structure Card where
  btn : WatchlistBtn
deriving DecidableEq

/-- The single, possibly absent `description-watchlist-btn` element. -/
structure DescBtn where
  anime : String
  textContent : String
deriving DecidableEq

structure Dom where
  cards : List Card
  descBtn : Option DescBtn
deriving DecidableEq

/-- One iteration of the `forEach` in `updateWatchlistButtons`
(lines 408-415): set the glyph from membership, then remove the parent
card when the glyph is `'☆'` and the button's second class
(`classList[1]`) is `"remove-btn"`. -/
def refreshCard (watchlist : List String) (c : Card) : Option Card :=
  let glyph := if isInWatchlist watchlist c.btn.anime then "★" else "☆"
  let btn := { c.btn with textContent := glyph }
  if glyph = "☆" ∧ btn.classList[1]? = some "remove-btn" then none
  else some { btn := btn }

/-- `updateWatchlistButtons()` (lines 406-424): refresh every toggle's
glyph (removing remove-only cards whose identifier is absent), then
special-case the possibly absent description-page button with prose
labels (lines 418-422, guarded by `if (btn)`). -/
def updateWatchlistButtons (watchlist : List String) (dom : Dom) : Dom :=
  { cards := dom.cards.filterMap (refreshCard watchlist),
    descBtn := dom.descBtn.map fun b =>
      { b with textContent :=
          if isInWatchlist watchlist b.anime then "Remove from watchlist"
          else "Add to watchlist" } }

structure AppState where
  watchlist : List String
  dom : Dom
deriving DecidableEq

/-- `updateWatchlistButtons` as a transformer of the whole page state:
it reads the store and rewrites the DOM, and contains no
`saveWatchlist` call, so the store component passes through. -/
def updateWatchlistButtonsS (st : AppState) : AppState :=
  { st with dom := updateWatchlistButtons st.watchlist st.dom }

/-- `toggleWatchlist(anime)` as a state transformer (lines 394-403):
read the list, toggle, `saveWatchlist`, then `updateWatchlistButtons()`. -/
def toggleWatchlistS (anime : String) (st : AppState) : AppState :=
  updateWatchlistButtonsS { st with watchlist := toggleWatchlist st.watchlist anime }

structure ClickEvent where
  defaultPrevented : Bool
  propagationStopped : Bool
deriving DecidableEq

/-- The click handler bound to every `.watchlist-btn` (lines 428-432):
`e.preventDefault()` (which cancels the card link's default navigation
but does not stop propagation), then `toggleWatchlist(btn.dataset.anime)`. -/
def watchlistBtnClick (btnAnime : String) (e : ClickEvent) (st : AppState) :
    ClickEvent × AppState :=
  ({ e with defaultPrevented := true }, toggleWatchlistS btnAnime st)

theorem refreshCard_some {watchlist : List String} {a c : Card}
    (h : refreshCard watchlist a = some c) :
    c.btn.anime = a.btn.anime ∧ c.btn.classList = a.btn.classList ∧
    c.btn.textContent = (if isInWatchlist watchlist a.btn.anime then "★" else "☆") ∧
    ¬(isInWatchlist watchlist a.btn.anime = false ∧
      a.btn.classList[1]? = some "remove-btn") := by
  by_cases hm : isInWatchlist watchlist a.btn.anime
  · simp only [refreshCard, hm, if_true] at h
    have : ("★" : String) = "☆" ↔ False := by simp
    rw [if_neg] at h
    · cases h
      simp [hm]
    · intro hc
      exact absurd hc.1 (by decide)
  · simp only [refreshCard, hm, if_false] at h
    by_cases hr : a.btn.classList[1]? = some "remove-btn"
    · rw [if_pos ⟨rfl, hr⟩] at h
      cases h
    · rw [if_neg (fun hc => hr hc.2)] at h
      cases h
      simp [hm, hr]

/-- C5 counterexample: the bound click handler calls `preventDefault()`
but never `stopPropagation()`, so after the handler runs the event has
not been stopped from bubbling (`propagationStopped` is still `false`). -/
theorem watchlistBtnClick_still_bubbles :
    (watchlistBtnClick "naruto" ⟨false, false⟩
        ⟨[], ⟨[⟨⟨"naruto", ["watchlist-btn"], "☆"⟩⟩], none⟩⟩).1.propagationStopped
      = false := rfl

/-- C5 (amended): the handler cancels the event's default action — the
containing card link's navigation — via `preventDefault()` (it does not
stop propagation), calls the Store toggle with the button's identifier
and then refreshes every view, leaving every surviving toggle's glyph a
function of the new membership. -/
theorem watchlistBtnClick_spec (anime : String) (e : ClickEvent) (st : AppState) :
    (watchlistBtnClick anime e st).1.defaultPrevented = true ∧
    (watchlistBtnClick anime e st).1.propagationStopped = e.propagationStopped ∧
    (watchlistBtnClick anime e st).2.watchlist = toggleWatchlist st.watchlist anime ∧
    (watchlistBtnClick anime e st).2.dom =
      updateWatchlistButtons (toggleWatchlist st.watchlist anime) st.dom ∧
    ∀ c ∈ (watchlistBtnClick anime e st).2.dom.cards,
      c.btn.textContent =
        (if isInWatchlist (toggleWatchlist st.watchlist anime) c.btn.anime
          then "★" else "☆") := by
  refine ⟨rfl, rfl, rfl, rfl, fun c hc => ?_⟩
  simp only [watchlistBtnClick, toggleWatchlistS, updateWatchlistButtonsS,
    updateWatchlistButtons, List.mem_filterMap] at hc
  obtain ⟨a, _, ha⟩ := hc
  obtain ⟨hanime, -, htext, -⟩ := refreshCard_some ha
  rw [htext, hanime]

/-- C5 witness: concrete instantiation — clicking the toggle of an
absent identifier prevents the default, leaves propagation running,
appends the identifier and repaints the glyph to `'★'`. -/
theorem watchlistBtnClick_spec_witness :
    (watchlistBtnClick "naruto" ⟨false, false⟩
        ⟨[], ⟨[⟨⟨"naruto", ["watchlist-btn"], "☆"⟩⟩], none⟩⟩).1.defaultPrevented = true ∧
    (watchlistBtnClick "naruto" ⟨false, false⟩
        ⟨[], ⟨[⟨⟨"naruto", ["watchlist-btn"], "☆"⟩⟩], none⟩⟩).2.watchlist = ["naruto"] := by
  have h := watchlistBtnClick_spec "naruto" ⟨false, false⟩
    ⟨[], ⟨[⟨⟨"naruto", ["watchlist-btn"], "☆"⟩⟩], none⟩⟩
  exact ⟨h.1, h.2.2.1.trans (by decide)⟩

/-- C7: during a refresh pass, every toggle whose second class is
`"remove-btn"` and whose identifier is absent from the watchlist has its
containing card removed (`refreshCard` yields `none`), no surviving card
is such a toggle, and the pass leaves the persisted watchlist unchanged
(the function contains no store write). -/
theorem updateWatchlistButtons_removeOnly (st : AppState) :
    (updateWatchlistButtonsS st).watchlist = st.watchlist ∧
    (∀ a ∈ st.dom.cards, a.btn.classList[1]? = some "remove-btn" →
      isInWatchlist st.watchlist a.btn.anime = false →
      refreshCard st.watchlist a = none) ∧
    ∀ c ∈ (updateWatchlistButtonsS st).dom.cards,
      ¬(c.btn.classList[1]? = some "remove-btn" ∧
        isInWatchlist st.watchlist c.btn.anime = false) := by
  refine ⟨rfl, fun a _ hr habs => ?_, fun c hc => ?_⟩
  · simp [refreshCard, habs, hr]
  · simp only [updateWatchlistButtonsS, updateWatchlistButtons,
      List.mem_filterMap] at hc
    obtain ⟨a, _, ha⟩ := hc
    obtain ⟨hanime, hclass, -, hcond⟩ := refreshCard_some ha
    rw [hclass, hanime]
    intro hcontra
    exact hcond ⟨hcontra.2, hcontra.1⟩

/-- C7 witness: a concrete remove-only card with an absent identifier is
removed by the refresh pass, and the store is untouched. -/
theorem updateWatchlistButtons_removeOnly_witness :
    refreshCard ([] : List String) ⟨⟨"naruto", ["watchlist-btn", "remove-btn"], "☆"⟩⟩ = none ∧
    (updateWatchlistButtonsS
        ⟨[], ⟨[⟨⟨"naruto", ["watchlist-btn", "remove-btn"], "☆"⟩⟩], none⟩⟩).watchlist = [] := by
  have h := updateWatchlistButtons_removeOnly
    ⟨[], ⟨[⟨⟨"naruto", ["watchlist-btn", "remove-btn"], "☆"⟩⟩], none⟩⟩
  exact ⟨h.2.1 _ (by decide) (by decide) (by decide), h.1⟩

/-! ## Page initialization (DOMContentLoaded handlers) -/

/-- Which of the DOM nodes the two big DOMContentLoaded handlers expect
are present on the current page. -/
structure Page where
  hasVideo : Bool
  hasPlayerContainer : Bool
  watchlistBtnCount : Nat
  hasDescBtn : Bool
  hasWatchlistGrid : Bool
deriving DecidableEq

/-- The video-player DOMContentLoaded handler (lines 18-169), modelled as
the sequence of listeners it binds, or an error if it throws.  The guard
at line 23 (`if (!video || !container) return;`) makes it return having
bound nothing when the page has no media element. -/
def initVideoPlayer (p : Page) : Except String (List String) :=
  if !p.hasVideo || !p.hasPlayerContainer then .ok []
  else .ok ["playPause.click", "video.click", "video.timeupdate",
    "seekBar.input", "document.keydown", "rewind.click", "forward.click",
    "fullscreen.click", "video.ended", "container.mousemove",
    "container.touchstart", "speedBtn.click", "document.click"]

/-- The watchlist DOMContentLoaded handler (lines 373-470), modelled as
the sequence of setup steps it performs.  Line 434 fetches
`description-watchlist-btn` and line 435 calls `addEventListener` on it
with no null guard (unlike `updateWatchlistButtons`, which does guard
the same element with `if (btn)` at line 419), so on a page without that
element the handler throws a TypeError and none of the later steps —
the immediate `updateWatchlistButtons()` at line 442 and the
MutationObserver setup at lines 445-467 — ever run. -/
def initWatchlistComponent (p : Page) : Except String (List String) :=
  let bindBtns := List.replicate p.watchlistBtnCount "watchlist-btn.click"
  if p.hasDescBtn then
    .ok (bindBtns ++ ["description-watchlist-btn.click", "updateWatchlistButtons"] ++
      (if p.hasWatchlistGrid then ["observe watchlist-grid"] else []))
  else .error "TypeError: cannot read addEventListener of null"

/-- C3 evaluation at the failing input: on a page with no media element
and no description-page watchlist button (a schedule or search page),
the video controller correctly no-ops, but the watchlist component's
setup throws a TypeError at line 435 instead of declining to run, so
it never reaches its initial refresh or its observer setup. -/
theorem initWatchlistComponent_throws_without_descBtn :
    initVideoPlayer ⟨false, false, 3, false, true⟩ = .ok [] ∧
    initWatchlistComponent ⟨false, false, 3, false, true⟩ =
      .error "TypeError: cannot read addEventListener of null" :=
  ⟨rfl, rfl⟩

/-! ## MutationObserver re-binding (page-behavior.js lines 445-467) -/

structure MutationRecord where
  isChildList : Bool
  addedNodesLength : Nat
deriving DecidableEq

/-- The initial bind pass (lines 427-433) attaches exactly one click
handler to each `.watchlist-btn` present at load; handler count per
button. -/
def initialBindCounts (btnCount : Nat) : List Nat :=
  List.replicate btnCount 1

/-- The observer callback (lines 449-463): for every childList mutation
with added nodes, it re-runs `document.querySelectorAll('.watchlist-btn')`
over the whole document and attaches a fresh click-handler closure to
every button found — already-bound or not.  `counts` holds the handler
count of each `.watchlist-btn` in the document at callback time. -/
def observerCallback (mutationsList : List MutationRecord) (counts : List Nat) :
    List Nat :=
  mutationsList.foldl
    (fun cs m => if m.isChildList && m.addedNodesLength > 0 then cs.map (· + 1) else cs)
    counts

/-- A click on a toggle runs each attached handler once; every handler
performs `toggleWatchlist` of the node's identifier (line 456). -/
def dispatchClick : Nat → String → List String → List String
  | 0, _, watchlist => watchlist
  | n + 1, anime, watchlist => dispatchClick n anime (toggleWatchlist watchlist anime)

/-- C4 evaluation at the failing input: a page with one toggle bound at
load; a single observer callback for one childList mutation with one
added node leaves that toggle with two click handlers, so one click
performs two `toggleWatchlist` calls (a net no-op on the store) instead
of exactly one. -/
theorem observerCallback_rebinds_bound_node :
    observerCallback [⟨true, 1⟩] (initialBindCounts 1) = [2] ∧
    dispatchClick 2 "naruto" [] = [] ∧
    dispatchClick 1 "naruto" [] = ["naruto"] := by
  refine ⟨rfl, ?_, rfl⟩
  decide

/-! ## Suggestion Fetcher (autocomplete script) -/

structure SuggestionState where
  items : List String
deriving DecidableEq

inductive FetchAction where
  | noRequest
  | request (query : String)
deriving DecidableEq

/-- The synchronous phase of the search input handler (autocomplete
script lines 4-12): an empty query — the only falsy string — clears the
suggestion list (`suggestions.innerHTML = ""`) and returns; otherwise a
fetch of `/autocomplete?q=<encoded query>` is issued and the list is
left untouched until the response arrives (URL encoding itself is not
modelled; the action records the raw query). -/
def searchInputHandler (query : String) (st : SuggestionState) :
    SuggestionState × FetchAction :=
  if query = "" then (⟨[]⟩, .noRequest)
  else (st, .request query)

/-- The response phase (lines 16-26): the list is replaced wholesale by
the returned items' titles. -/
def applyAutocompleteResponse (titles : List String) : SuggestionState :=
  ⟨titles⟩

/-- C9: on an input event with an empty query, the suggestion list is
cleared synchronously and no outbound autocomplete request is issued. -/
theorem searchInput_empty_clears (query : String) (st : SuggestionState)
    (h : query = "") :
    (searchInputHandler query st).1.items = [] ∧
    (searchInputHandler query st).2 = .noRequest := by
  subst h
  simp [searchInputHandler]

/-- C9 witness: concrete instantiation with a non-empty prior list. -/
theorem searchInput_empty_clears_witness :
    (searchInputHandler "" ⟨["Naruto", "One Piece"]⟩).1.items = [] ∧
    (searchInputHandler "" ⟨["Naruto", "One Piece"]⟩).2 = .noRequest :=
  searchInput_empty_clears "" ⟨["Naruto", "One Piece"]⟩ rfl

/-! ## Storage payloads: JSON.parse / JSON.stringify
(getWatchlist, lines 378-381; saveWatchlist, lines 384-386)

`getWatchlist` hands a non-empty stored payload straight to `JSON.parse`
with no try/catch, so the parse itself must be embedded.  The grammar is
the standard JSON one; numeric literals are kept as their lexed text
since no claim inspects a numeric value, and surrogate-pair combination
in `\u` escapes is not modelled (no claim involves characters beyond the
basic plane). -/

inductive Json where
  | null
  | bool (b : Bool)
  | num (lit : String)
  | str (s : String)
  | arr (elems : List Json)
  | obj (members : List (String × Json))

def isJsonWs (c : Char) : Bool :=
  c = ' ' || c = '\t' || c = '\n' || c = '\r'

def skipWs : List Char → List Char
  | [] => []
  | c :: cs => if isJsonWs c then skipWs cs else c :: cs

def hexDigitVal (c : Char) : Option Nat :=
  if '0' ≤ c ∧ c ≤ '9' then some (c.toNat - '0'.toNat)
  else if 'a' ≤ c ∧ c ≤ 'f' then some (c.toNat - 'a'.toNat + 10)
  else if 'A' ≤ c ∧ c ≤ 'F' then some (c.toNat - 'A'.toNat + 10)
  else none

def simpleEscape (c : Char) : Option Char :=
  if c = '"' then some '"'
  else if c = '\\' then some '\\'
  else if c = '/' then some '/'
  else if c = 'b' then some (Char.ofNat 8)
  else if c = 'f' then some (Char.ofNat 12)
  else if c = 'n' then some '\n'
  else if c = 'r' then some (Char.ofNat 13)
  else if c = 't' then some '\t'
  else none

/-- Body of a JSON string after the opening quote: returns the decoded
characters and the input remaining after the closing quote.  Raw control
characters are illegal; escapes are the eight short ones plus `\uXXXX`. -/
def parseStrBody : List Char → Option (List Char × List Char)
  | [] => none
  | c :: cs =>
    if c = '"' then some ([], cs)
    else if c = '\\' then
      match cs with
      | [] => none
      | e :: cs' =>
        if e = 'u' then
          match cs' with
          | h1 :: h2 :: h3 :: h4 :: cs'' =>
            (hexDigitVal h1).bind fun d1 =>
              (hexDigitVal h2).bind fun d2 =>
                (hexDigitVal h3).bind fun d3 =>
                  (hexDigitVal h4).bind fun d4 =>
                    (parseStrBody cs'').map fun p =>
                      (Char.ofNat (((d1 * 16 + d2) * 16 + d3) * 16 + d4) :: p.1, p.2)
          | _ => none
        else
          match simpleEscape e with
          | some ec => (parseStrBody cs').map fun p => (ec :: p.1, p.2)
          | none => none
    else if c.toNat < 32 then none
    else (parseStrBody cs).map fun p => (c :: p.1, p.2)

def lexDigits : List Char → List Char × List Char
  | [] => ([], [])
  | c :: cs =>
    if c.isDigit then
      let p := lexDigits cs
      (c :: p.1, p.2)
    else ([], c :: cs)

def lexInt : List Char → Option (List Char × List Char)
  | [] => none
  | c :: cs =>
    if c = '0' then some (['0'], cs)
    else if '1' ≤ c ∧ c ≤ '9' then
      let p := lexDigits cs
      some (c :: p.1, p.2)
    else none

def lexFrac : List Char → Option (List Char × List Char)
  | '.' :: cs =>
    (match lexDigits cs with
    | ([], _) => none
    | (ds, r) => some ('.' :: ds, r))
  | cs => some ([], cs)

def lexExp : List Char → Option (List Char × List Char)
  | [] => some ([], [])
  | c :: cs =>
    if c = 'e' ∨ c = 'E' then
      let signRest : List Char × List Char :=
        match cs with
        | [] => ([], [])
        | s :: cs' => if s = '+' ∨ s = '-' then ([s], cs') else ([], s :: cs')
      match lexDigits signRest.2 with
      | ([], _) => none
      | (ds, r) => some (c :: signRest.1 ++ ds, r)
    else some ([], c :: cs)

/-- A JSON numeric literal: optional minus, `0` or a nonzero-led digit
run, optional fraction, optional exponent; the literal text is returned
unevaluated. -/
def lexNumber (input : List Char) : Option (List Char × List Char) :=
  let signRest : List Char × List Char :=
    match input with
    | '-' :: cs => (['-'], cs)
    | cs => ([], cs)
  match lexInt signRest.2 with
  | none => none
  | some (i, r1) =>
    match lexFrac r1 with
    | none => none
    | some (f, r2) =>
      match lexExp r2 with
      | none => none
      | some (e, r3) => some (signRest.1 ++ i ++ f ++ e, r3)

mutual

/-- One JSON value, fuel-bounded (the fuel only bounds bracket nesting;
`jsonParse` supplies more fuel than the input length, which always
suffices because each nesting level consumes at least one character). -/
def parseValue : Nat → List Char → Option (Json × List Char)
  | 0, _ => none
  | fuel + 1, input =>
    match skipWs input with
    | 'n' :: 'u' :: 'l' :: 'l' :: cs => some (.null, cs)
    | 't' :: 'r' :: 'u' :: 'e' :: cs => some (.bool true, cs)
    | 'f' :: 'a' :: 'l' :: 's' :: 'e' :: cs => some (.bool false, cs)
    | '"' :: cs => (parseStrBody cs).map fun p => (.str (String.mk p.1), p.2)
    | '[' :: cs =>
      (match skipWs cs with
      | ']' :: r => some (.arr [], r)
      | cs' => (parseElems fuel cs').map fun p => (.arr p.1, p.2))
    | '{' :: cs =>
      (match skipWs cs with
      | '}' :: r => some (.obj [], r)
      | cs' => (parseMembers fuel cs').map fun p => (.obj p.1, p.2))
    | cs => (lexNumber cs).map fun p => (.num (String.mk p.1), p.2)

/-- Comma-separated values up to the closing `]`. -/
def parseElems : Nat → List Char → Option (List Json × List Char)
  | 0, _ => none
  | fuel + 1, input =>
    match parseValue fuel input with
    | none => none
    | some (v, r) =>
      match skipWs r with
      | ',' :: r' => (parseElems fuel r').map fun p => (v :: p.1, p.2)
      | ']' :: r' => some ([v], r')
      | _ => none

/-- Comma-separated `"key": value` members up to the closing `}`. -/
def parseMembers : Nat → List Char → Option (List (String × Json) × List Char)
  | 0, _ => none
  | fuel + 1, input =>
    match skipWs input with
    | '"' :: cs =>
      (match parseStrBody cs with
      | none => none
      | some (k, r) =>
        match skipWs r with
        | ':' :: r' =>
          (match parseValue fuel r' with
          | none => none
          | some (v, r2) =>
            match skipWs r2 with
            | ',' :: r3 => (parseMembers fuel r3).map fun p => ((String.mk k, v) :: p.1, p.2)
            | '}' :: r3 => some ([(String.mk k, v)], r3)
            | _ => none)
        | _ => none)
    | _ => none

end

/-- `JSON.parse`: a single value surrounded by whitespace; anything else
(including trailing garbage) is a parse failure, which in the source
throws an uncaught SyntaxError. -/
def jsonParse (s : String) : Option Json :=
  match parseValue (s.data.length + 1) s.data with
  | some (v, rest) => if skipWs rest = [] then some v else none
  | none => none

/-- `getWatchlist()` (lines 378-381): `localStorage.getItem` yields
`null` (modelled `none`) or a string; a null or empty-string payload is
falsy and yields `[]`; otherwise the payload goes straight to
`JSON.parse` with no try/catch, so a payload that fails to parse throws
(modelled as `Except.error ()`). -/
def getWatchlist (stored : Option String) : Except Unit Json :=
  match stored with
  | none => .ok (.arr [])
  | some s =>
    if s = "" then .ok (.arr [])
    else
      match jsonParse s with
      | some v => .ok v
      | none => .error ()

def hexDigitChar (n : Nat) : Char :=
  if n < 10 then Char.ofNat ('0'.toNat + n) else Char.ofNat ('a'.toNat + (n - 10))

/-- `JSON.stringify`'s escaping of one character inside a string: quote
and backslash get two-character escapes, control characters get their
short escapes (`\b \t \n \f \r`) or `\u00xx`, everything else is
emitted verbatim. -/
def encodeChar (c : Char) : List Char :=
  if c = '"' then ['\\', '"']
  else if c = '\\' then ['\\', '\\']
  else if c.toNat < 32 then
    if c = Char.ofNat 8 then ['\\', 'b']
    else if c = '\t' then ['\\', 't']
    else if c = '\n' then ['\\', 'n']
    else if c = Char.ofNat 12 then ['\\', 'f']
    else if c = Char.ofNat 13 then ['\\', 'r']
    else ['\\', 'u', '0', '0', hexDigitChar (c.toNat / 16), hexDigitChar (c.toNat % 16)]
  else [c]

def encodeBody : List Char → List Char
  | [] => []
  | c :: cs => encodeChar c ++ encodeBody cs

def encodeString (s : String) : List Char :=
  '"' :: encodeBody s.data ++ ['"']

def stringifyElems : List String → List Char
  | [] => []
  | [s] => encodeString s
  | s :: ss => encodeString s ++ ',' :: stringifyElems ss

/-- `saveWatchlist(list)` (lines 384-386): the payload written to the
storage key is `JSON.stringify(list)` — bracketed, comma-separated,
quoted entries with no added whitespace. -/
def saveWatchlist (list : List String) : String :=
  String.mk ('[' :: stringifyElems list ++ [']'])

/-! ### Round trip: parsing a stringified watchlist recovers the list -/

theorem skipWs_cons_of_not_ws {c : Char} (h : isJsonWs c = false) (cs : List Char) :
    skipWs (c :: cs) = c :: cs := by
  simp [skipWs, h]

theorem hexVal_hexChar (n : Nat) (h : n < 16) :
    hexDigitVal (hexDigitChar n) = some n := by
  interval_cases n <;> rfl

theorem parseStrBody_encodeChar (c : Char) (cs : List Char) :
    parseStrBody (encodeChar c ++ cs) =
      (parseStrBody cs).map fun p => (c :: p.1, p.2) := by
  by_cases h1 : c = '"'
  · subst h1; rw [parseStrBody.eq_def]; rfl
  by_cases h2 : c = '\\'
  · subst h2; rw [parseStrBody.eq_def]; rfl
  by_cases h3 : c.toNat < 32
  · by_cases hb : c = Char.ofNat 8
    · subst hb; rw [parseStrBody.eq_def]; rfl
    by_cases ht : c = '\t'
    · subst ht; rw [parseStrBody.eq_def]; rfl
    by_cases hn : c = '\n'
    · subst hn; rw [parseStrBody.eq_def]; rfl
    by_cases hf : c = Char.ofNat 12
    · subst hf; rw [parseStrBody.eq_def]; rfl
    by_cases hr : c = Char.ofNat 13
    · subst hr; rw [parseStrBody.eq_def]; rfl
    have henc : encodeChar c =
        ['\\', 'u', '0', '0', hexDigitChar (c.toNat / 16), hexDigitChar (c.toNat % 16)] := by
      simp [encodeChar, h1, h2, h3, hb, ht, hn, hf, hr]
    have hd3 : hexDigitVal (hexDigitChar (c.toNat / 16)) = some (c.toNat / 16) :=
      hexVal_hexChar _ (by omega)
    have hd4 : hexDigitVal (hexDigitChar (c.toNat % 16)) = some (c.toNat % 16) :=
      hexVal_hexChar _ (by omega)
    have h0 : hexDigitVal '0' = some 0 := rfl
    have key : Char.ofNat (c.toNat / 16 * 16 + c.toNat % 16) = c := by
      have h : c.toNat / 16 * 16 + c.toNat % 16 = c.toNat := by omega
      rw [h, Char.ofNat_toNat]
    rw [henc]
    simp only [List.cons_append, List.nil_append]
    rw [parseStrBody.eq_def]
    simp [hd3, hd4, h0, key]
  · have henc : encodeChar c = [c] := by
      simp [encodeChar, h1, h2, h3]
    rw [henc]
    simp only [List.cons_append, List.nil_append]
    rw [parseStrBody.eq_def]
    simp [h1, h2, h3]

theorem parseStrBody_encodeBody (l : List Char) (rest : List Char) :
    parseStrBody (encodeBody l ++ '"' :: rest) = some (l, rest) := by
  induction l with
  | nil =>
    show parseStrBody (encodeBody [] ++ '"' :: rest) = _
    rw [show encodeBody [] ++ '"' :: rest = '"' :: rest from rfl, parseStrBody.eq_def]
    rfl
  | cons c l ih =>
    rw [show encodeBody (c :: l) = encodeChar c ++ encodeBody l from rfl,
      List.append_assoc, parseStrBody_encodeChar, ih]
    rfl

theorem parseValue_encodeString (fuel : Nat) (s : String) (rest : List Char) :
    parseValue (fuel + 1) (encodeString s ++ rest) = some (.str s, rest) := by
  have h : encodeString s ++ rest = '"' :: (encodeBody s.data ++ '"' :: rest) := by
    simp [encodeString]
  rw [h, parseValue.eq_def]
  simp [skipWs, isJsonWs, parseStrBody_encodeBody]

theorem stringifyElems_cons (s s2 : String) (ss : List String) :
    stringifyElems (s :: s2 :: ss) = encodeString s ++ ',' :: stringifyElems (s2 :: ss) :=
  rfl

theorem parseElems_stringifyElems (l : List String) :
    ∀ (fuel : Nat) (rest : List Char), l ≠ [] → l.length < fuel →
      parseElems fuel (stringifyElems l ++ ']' :: rest) =
        some (l.map Json.str, rest) := by
  induction l with
  | nil => exact fun fuel rest h _ => absurd rfl h
  | cons s ss ih =>
    intro fuel rest _ hlen
    match fuel, hlen with
    | f + 2, hlen =>
      cases ss with
      | nil =>
        rw [show stringifyElems [s] = encodeString s from rfl, parseElems.eq_def]
        simp [parseValue_encodeString f s (']' :: rest), skipWs, isJsonWs]
      | cons s2 ss' =>
        rw [stringifyElems_cons, List.append_assoc, List.cons_append, parseElems.eq_def]
        have hih := ih (f + 1) rest (by simp) (by simp at hlen ⊢; omega)
        simp [parseValue_encodeString f s (',' :: (stringifyElems (s2 :: ss') ++ ']' :: rest)),
          skipWs, isJsonWs, hih]

theorem stringifyElems_length_le (l : List String) :
    l.length ≤ (stringifyElems l).length := by
  induction l with
  | nil => simp [stringifyElems]
  | cons s ss ih =>
    cases ss with
    | nil => simp [stringifyElems, encodeString]
    | cons s2 ss' =>
      rw [stringifyElems_cons]
      simp only [List.length_cons, List.length_append, encodeString]
      simp at ih ⊢
      omega

theorem jsonParse_saveWatchlist (l : List String) :
    jsonParse (saveWatchlist l) = some (.arr (l.map Json.str)) := by
  cases l with
  | nil => rfl
  | cons s ss =>
    obtain ⟨t, ht⟩ : ∃ t, stringifyElems (s :: ss) = '"' :: t := by
      cases ss
      · exact ⟨_, rfl⟩
      · exact ⟨_, rfl⟩
    have hN : (s :: ss).length < ('[' :: (stringifyElems (s :: ss) ++ [']'])).length := by
      have := stringifyElems_length_le (s :: ss)
      simp only [List.length_cons, List.length_append] at this ⊢
      omega
    have hdata : (saveWatchlist (s :: ss)).data = '[' :: (stringifyElems (s :: ss) ++ [']']) :=
      rfl
    rw [jsonParse, hdata]
    set N := ('[' :: (stringifyElems (s :: ss) ++ [']'])).length with hNd
    have hE := parseElems_stringifyElems (s :: ss) N [] (by simp) hN
    rw [ht, List.cons_append] at hE
    rw [parseValue.eq_def]
    simp [skipWs, isJsonWs, ht, List.cons_append, hE]

/-- C2 counterexample: the payload `"not json"` is non-empty and fails to
parse as JSON, and `getWatchlist` propagates the parse failure (the
uncaught SyntaxError of `JSON.parse`) instead of returning the empty
sequence. -/
theorem getWatchlist_corrupt_throws :
    jsonParse "not json" = none ∧
    getWatchlist (some "not json") = .error () ∧
    getWatchlist (some "not json") ≠ .ok (.arr []) :=
  ⟨rfl, rfl, fun h => Except.noConfusion h⟩

/-- C2 (amended): `get()` yields the empty sequence when nothing is
persisted or the payload is the empty string, and decodes a stored
`JSON.stringify` of any identifier list back to exactly that sequence;
but a non-empty payload that fails to parse as JSON makes `JSON.parse`
throw — the error propagates, the corrupt payload is not treated as
empty. -/
theorem getWatchlist_spec :
    getWatchlist none = .ok (.arr []) ∧
    getWatchlist (some "") = .ok (.arr []) ∧
    (∀ l : List String,
      getWatchlist (some (saveWatchlist l)) = .ok (.arr (l.map Json.str))) ∧
    getWatchlist (some "not json") = .error () := by
  refine ⟨rfl, rfl, fun l => ?_, rfl⟩
  have hne : saveWatchlist l ≠ "" := by
    intro hc
    have hd := congrArg String.data hc
    simp [saveWatchlist] at hd
  simp [getWatchlist, hne, jsonParse_saveWatchlist]

end AniWeb
